import Mathlib

/-!
Shallow embedding of the Uno server (`src/uno/uno.py`) and proofs about it.

Python lists are embedded as Lean `List`s in the same order, so the Python
`list.pop()` removes the last element (`pyPop`) and `list.pop(i)` removes the
element at a possibly negative index (`pyPopAt`).  Python strings are embedded
as Lean `String`s, with the handful of `str` methods the source uses
re-implemented over `String.data` so that they evaluate by kernel reduction.
`random.shuffle` is modelled by an explicit parameter `sh : List Card → List
Card` assumed (in theorems) to permute its input; `random.choice` over the
legal indices of the bot are modelled by a scripted pick, and the replies of
the human over the socket by scripted input lists.  A Python exception that
would escape the engine (IndexError, ZeroDivisionError) is modelled by an
`Option`-style `crash` result.
-/

/-- Python `str.upper()` restricted to the embedding: uppercase every char. -/
def pyUpper (s : String) : String := String.mk (s.data.map Char.toUpper)

/-- Python `str.isdigit()`: nonempty and every char a digit. -/
def pyIsdigit (s : String) : Bool := !s.data.isEmpty && s.data.all Char.isDigit

/-- Python `int(s)` for a digit string: base-10 value of the digits. -/
def pyInt (s : String) : Nat := s.data.foldl (fun n c => 10 * n + (c.toNat - 48)) 0

/-- Python `str.startswith(p)`. -/
def pyStartswith (s p : String) : Bool := p.data.isPrefixOf s.data

/-- Python `list.pop()`: remove and return the last element; `none` models the
IndexError raised on an empty list. -/
def pyPop {α : Type} (l : List α) : Option (α × List α) :=
  match l.getLast? with
  | none => none
  | some x => some (x, l.dropLast)

/-- Python `list.pop(idx)` with a possibly negative index; `none` models the
IndexError raised when the index is out of range. -/
def pyPopAt {α : Type} (l : List α) (idx : Int) : Option (α × List α) :=
  let j : Int := if idx < 0 then idx + (l.length : Int) else idx
  if 0 ≤ j ∧ j < (l.length : Int) then
    match l[j.toNat]? with
    | none => none
    | some a => some (a, l.eraseIdx j.toNat)
  else none

/-- A card is a `(rank, color)` pair, as in the source. -/
abbrev Card := String × String

/-- The color list `colors = ["RED", "BLUE", "GREEN", "YELLOW"]` (uno.py line 41). -/
def colors : List String := ["RED", "BLUE", "GREEN", "YELLOW"]

/-- The doubled color list `_dc = colors * 2` (uno.py line 47). -/
def _dc : List String := colors ++ colors

/-- The four rank-"0" cards, one per color (uno.py lines 44-45). -/
def zeroCards : List Card := colors.map (fun color => ("0", color))

/-- The rank strings `str(x)` for `x in range(1, 10)`. -/
def digitRanks : List String := ["1", "2", "3", "4", "5", "6", "7", "8", "9"]

/-- The number cards: for each color in `_dc`, ranks "1".."9" (lines 49-51). -/
def numberCards : List Card :=
  List.flatMap _dc (fun color => digitRanks.map (fun r => (r, color)))

/-- SKIP/REVERSE/DRAW2 for each color in `_dc` (uno.py lines 53-56). -/
def actionCards : List Card :=
  List.flatMap _dc (fun color => [("SKIP", color), ("REVERSE", color), ("DRAW2", color)])

/-- The wild cards `(("WILD","ALL"), ("WILD4","ALL")) * 4` (uno.py line 58). -/
def wildCards : List Card :=
  List.flatMap (List.range 4) (fun _ => [("WILD", "ALL"), ("WILD4", "ALL")])

/-- The module-level `cards` list (uno.py lines 42-58). -/
def cards : List Card := zeroCards ++ numberCards ++ actionCards ++ wildCards

/-- Model of `generate_deck()` (uno.py lines 60-64): a shuffled copy of `cards`.
The shuffle is the explicit parameter `sh`. -/
def generate_deck (sh : List Card → List Card) : List Card := sh cards

/-- Pop `n` cards off the end of a list, in popping order; `none` models the
IndexError when the list runs out. -/
def popN {α : Type} : Nat → List α → Option (List α × List α)
  | 0, l => some ([], l)
  | n + 1, l =>
    match pyPop l with
    | none => none
    | some (c, l2) =>
      match popN n l2 with
      | none => none
      | some (cs, l3) => some (c :: cs, l3)

/-- Model of `generate_hand(deck)` (uno.py lines 66-68): pop 7 cards from the deck. -/
def generate_hand (deck : List Card) : Option (List Card × List Card) := popN 7 deck

/-- Model of `draw_card(deck, played)` (uno.py lines 78-88).  Returns the drawn card,
the new deck and the new discard pile; `none` models an uncaught IndexError. -/
def draw_card (sh : List Card → List Card) (deck played : List Card) :
    Option (Card × List Card × List Card) :=
  if deck.isEmpty = false then
    match pyPop deck with
    | none => none
    | some (c, deck2) => some (c, deck2, played)
  else
    match pyPop played with
    | none => none
    | some (top, rest) =>
      match pyPop (deck ++ sh rest) with
      | none => none
      | some (c, deck2) => some (c, deck2, [top])

/-- Performs `n` successive `draw_card` calls (the generator expression on line 188). -/
def drawN (sh : List Card → List Card) :
    Nat → List Card → List Card → Option (List Card × List Card × List Card)
  | 0, deck, played => some ([], deck, played)
  | n + 1, deck, played =>
    match draw_card sh deck played with
    | none => none
    | some (c, deck2, played2) =>
      match drawN sh n deck2 played2 with
      | none => none
      | some (cs, deck3, played3) => some (c :: cs, deck3, played3)

/-- The play-legality test of uno.py lines 139 and 164: wild, or rank match,
or color match against the discard top. -/
def legal (c top : Card) : Bool :=
  pyStartswith c.1 "WILD" || (c.1 == top.1 || c.2 == top.2)

/-- Outcome of handling one line of human input (uno.py lines 125-147). -/
inductive SelOutcome where
  | draw : SelOutcome
  | reprompt : SelOutcome
  | play : Card → List Card → SelOutcome
  | crash : SelOutcome
deriving DecidableEq, Repr

/-- One round of the human card-selection loop body (uno.py lines 125-147)
for the input line `dec`. -/
def select_step (hand : List Card) (top : Card) (dec : String) : SelOutcome :=
  if pyUpper dec == "DRAW" then SelOutcome.draw
  else if pyIsdigit dec = false then SelOutcome.reprompt
  else if ((pyInt dec : Int) - 1) > (hand.length : Int) then SelOutcome.reprompt
  else
    let idx : Int := (pyInt dec : Int) - 1
    match hand[(Int.emod idx (hand.length : Int)).toNat]? with
    | none => SelOutcome.crash
    | some ncard =>
      if legal ncard top then
        match pyPopAt hand idx with
        | none => SelOutcome.crash
        | some (card, hand2) => SelOutcome.play card hand2
      else SelOutcome.reprompt

/-- The human card-selection `while True` loop (uno.py lines 124-147), fed a
script of input lines; `none` means the script ran out (the loop would keep
blocking on the socket). -/
def select_loop (hand : List Card) (top : Card) : List String → Option SelOutcome
  | [] => none
  | d :: ds =>
    match select_step hand top d with
    | SelOutcome.reprompt => select_loop hand top ds
    | o => some o

/-- The human color-selection `while True` loop after a wild is played
(uno.py lines 150-157).  Note line 156: the card is rebuilt as
`("WILD", newcolor)` whatever its original rank was. -/
def color_loop (card : Card) : List String → Option Card
  | [] => none
  | s :: rest =>
    let newcolor := pyUpper s
    if colors.contains newcolor then some ("WILD", newcolor)
    else color_loop card rest

/-- Base-10 value of the last character of a rank string (`int(card[0][-1])`,
uno.py line 177). -/
def lastCharDigit (s : String) : Nat :=
  match s.data.getLast? with
  | some ch => ch.toNat - 48
  | none => 0

/-- The forced-draw count of a played card (uno.py lines 175-177). -/
def ndrawOf (card : Card) : Nat :=
  if card.1 == "DRAW2" || card.1 == "WILD4" then lastCharDigit card.1 else 0

/-- The keys of `collections.Counter(it)` in first-occurrence order. -/
def pyCounterKeys : List String → List String
  | [] => []
  | c :: rest => c :: (pyCounterKeys rest).filter (fun x => x != c)

/-- Python `max(items, key=lambda x: x[1], default=dflt)`: the first item of
maximal second component (later items replace only when strictly greater). -/
def pyMax (items : List (String × Nat)) (dflt : String × Nat) : String × Nat :=
  match items with
  | [] => dflt
  | x :: rest => rest.foldl (fun best y => if best.2 < y.2 then y else best) x

/-- The wild-card recoloring of the bot (uno.py lines 170-172): keep the rank, take
the color occurring most often in the remaining hand; `fallback` models
`choice(colors)` in the `default` argument. -/
def ai_recolor (card : Card) (hand : List Card) (fallback : String) : Card :=
  let hcolors := hand.map Prod.snd
  let items := (pyCounterKeys hcolors).map (fun c => (c, hcolors.count c))
  (card.1, (pyMax items (fallback, 0)).1)

/-- The legal indices available to the bot (uno.py line 164). -/
def ai_choices (hand : List Card) (top : Card) : List Nat :=
  (List.range hand.length).filter (fun j =>
    match hand[j]? with
    | some item => legal item top
    | none => false)

/-- Outcome of the bot decision (uno.py lines 160-172). -/
inductive AIOutcome where
  | draw : AIOutcome
  | play : Card → List Card → AIOutcome
deriving DecidableEq, Repr

/-- The bot turn decision (uno.py lines 160-172); `pick` scripts
`random.choice` over the legal indices. -/
def ai_step (hand : List Card) (top : Card) (pick : Nat) (fallback : String) : AIOutcome :=
  match ai_choices hand top with
  | [] => AIOutcome.draw
  | j0 :: rest =>
    let js := j0 :: rest
    let j := (js[pick % js.length]?).getD j0
    match hand[j]? with
    | none => AIOutcome.draw
    | some card =>
      let hand2 := hand.eraseIdx j
      if pyStartswith card.1 "WILD" then
        AIOutcome.play (ai_recolor card hand2 fallback) hand2
      else
        AIOutcome.play card hand2

/-- A seat in the play order: either a connected human (socket dropped from
the model) or a bot (uno.py lines 100-104, 119). -/
inductive Player where
  | human (name : String)
  | ai (name : String)
deriving DecidableEq, Repr

/-- The scripted external choices consumed by one turn of one player. -/
structure TurnScript where
  inputs : List String
  colorInputs : List String
  pick : Nat
  fallback : String
deriving Repr

/-- The result of the decision phase of one player (uno.py lines 117-172). -/
inductive Decision where
  | drew : Decision
  | played (card : Card) (hand2 : List Card) : Decision
  | won (winner : String) : Decision
  | blocked : Decision
deriving DecidableEq, Repr

/-- The decision of one player (uno.py lines 117-172): the human selection loop
with its win check and color loop, or the bot logic.  The win check (lines
142-144) fires only in the human branch. -/
def turn_decision (sc : TurnScript) (player : Player) (hand : List Card) (top : Card) :
    Decision :=
  match player with
  | Player.human name =>
    match select_loop hand top sc.inputs with
    | none => Decision.blocked
    | some SelOutcome.draw => Decision.drew
    | some SelOutcome.reprompt => Decision.blocked
    | some SelOutcome.crash => Decision.blocked
    | some (SelOutcome.play card hand2) =>
      if hand2.isEmpty then Decision.won name
      else if pyStartswith card.1 "WILD" then
        match color_loop card sc.colorInputs with
        | none => Decision.blocked
        | some card2 => Decision.played card2 hand2
      else Decision.played card hand2
  | Player.ai _ =>
    match ai_step hand top sc.pick sc.fallback with
    | AIOutcome.draw => Decision.drew
    | AIOutcome.play card hand2 => Decision.played card hand2

/-- The mutable state of the game loop in `start` (uno.py lines 98-110). -/
structure EngineState where
  play_order : List (Player × List Card)
  deck : List Card
  played : List Card
  skipped : Bool
deriving DecidableEq, Repr

/-- Result of one iteration of the `for` loop in `start`. -/
inductive StepResult where
  | gameOver (winner : String) : StepResult
  | crash : StepResult
  | next (st : EngineState) : StepResult
deriving DecidableEq, Repr

/-- The draw action (uno.py lines 193-195): the acting player appends one
drawn card to their hand. -/
def apply_draw (sh : List Card → List Card) (st : EngineState) (i : Nat)
    (player : Player) (hand : List Card) : StepResult :=
  match draw_card sh st.deck st.played with
  | none => StepResult.crash
  | some (c, deck2, played2) =>
    StepResult.next
      { st with
        play_order := st.play_order.set i (player, hand ++ [c])
        deck := deck2
        played := played2 }

/-- Effect application after a play (uno.py lines 174-192): reverse, skip,
append to the discard pile, then forced draws for the next seat. -/
def apply_play (sh : List Card → List Card) (st : EngineState) (i : Nat)
    (player : Player) (card : Card) (hand2 : List Card) : StepResult :=
  let po1 := st.play_order.set i (player, hand2)
  let po2 := if card.1 == "REVERSE" then po1.reverse else po1
  let sk := card.1 == "SKIP"
  let played2 := st.played ++ [card]
  let ndraw := ndrawOf card
  if ndraw = 0 then
    StepResult.next { play_order := po2, deck := st.deck, played := played2, skipped := sk }
  else
    match drawN sh ndraw st.deck played2 with
    | none => StepResult.crash
    | some (drawn, deck2, played3) =>
      match po2[(i + 1) % po2.length]? with
      | none => StepResult.crash
      | some (np, nh) =>
        StepResult.next
          { play_order := po2.set ((i + 1) % po2.length) (np, nh ++ drawn)
            deck := deck2
            played := played3
            skipped := sk }

/-- One iteration of the `for i, (player, hand) in enumerate(play_order)`
body (uno.py lines 111-195) at index `i`. -/
def engine_iter (sh : List Card → List Card) (sc : TurnScript)
    (st : EngineState) (i : Nat) : StepResult :=
  match st.play_order[i]? with
  | none => StepResult.crash
  | some (player, hand) =>
    if st.skipped then StepResult.next { st with skipped := false }
    else
      match st.played.getLast? with
      | none => StepResult.crash
      | some top =>
        match turn_decision sc player hand top with
        | Decision.blocked => StepResult.crash
        | Decision.won w => StepResult.gameOver w
        | Decision.drew => apply_draw sh st i player hand
        | Decision.played card hand2 => apply_play sh st i player card hand2

/-- Result of one full `for` pass over the play order. -/
inductive PassResult where
  | gameOver (winner : String) : PassResult
  | crash : PassResult
  | done (st : EngineState) : PassResult
deriving DecidableEq, Repr

/-- One `for` pass over the play order (uno.py lines 111-195), consuming one
`TurnScript` per iteration; `crash` also covers running out of scripts. -/
def engine_pass (sh : List Card → List Card) :
    List TurnScript → EngineState → Nat → PassResult
  | [], st, i =>
    if i < st.play_order.length then PassResult.crash else PassResult.done st
  | sc :: rest, st, i =>
    if i < st.play_order.length then
      match engine_iter sh sc st i with
      | StepResult.gameOver w => PassResult.gameOver w
      | StepResult.crash => PassResult.crash
      | StepResult.next st2 => engine_pass sh rest st2 (i + 1)
    else PassResult.done st

/-- Result of running finitely many passes of the outer `while True` loop. -/
inductive RunResult where
  | gameOver (winner : String) : RunResult
  | crash : RunResult
  | running (st : EngineState) : RunResult
deriving DecidableEq, Repr

/-- The outer `while True` loop of `start` (uno.py lines 109-195) run for
finitely many passes.  Line 110 resets `skipped` at the top of every pass. -/
def engine_run (sh : List Card → List Card) :
    List (List TurnScript) → EngineState → RunResult
  | [], st => RunResult.running st
  | scs :: rest, st =>
    match engine_pass sh scs { st with skipped := false } 0 with
    | PassResult.gameOver w => RunResult.gameOver w
    | PassResult.crash => RunResult.crash
    | PassResult.done st2 => engine_run sh rest st2

/-- All cards in play: deck, discard pile, and every hand. -/
def allCards (st : EngineState) : List Card :=
  st.deck ++ st.played ++ List.flatMap st.play_order (fun p => p.2)

/-- The json.dumps escaping for one character (ASCII fragment used here). -/
def jsonEscapeChar (c : Char) : List Char :=
  if c = '"' then ['\\', '"']
  else if c = '\\' then ['\\', '\\']
  else if c = '\n' then ['\\', 'n']
  else if c = '\t' then ['\\', 't']
  else if c = '\r' then ['\\', 'r']
  else [c]

/-- A JSON string literal for `s`. -/
def jsonStr (s : String) : List Char :=
  '"' :: (List.flatMap s.data jsonEscapeChar ++ ['"'])

/-- Encoding of a single-key dict by json.dumps with default separators: a single-key
object with no whitespace beyond one space after the colon. -/
def jsonDumps1 (k v : String) : List Char :=
  Char.ofNat 123 :: (jsonStr k ++ (':' :: ' ' :: jsonStr v) ++ [Char.ofNat 125])

/-- The Python `" ".join(message)`. -/
def pyJoinSpace (parts : List String) : String :=
  String.mk (List.intercalate [' '] (parts.map String.data))

/-- The bytes sent per target by `broadcast` (uno.py lines 256-261):
a `message` object plus a newline. -/
def broadcast_line (message : List String) : List Char :=
  jsonDumps1 "message" (pyJoinSpace message) ++ ['\n']

/-- The bytes sent by `send_user` (uno.py lines 263-266). -/
def send_user_line (message : List String) : List Char :=
  jsonDumps1 "message" (pyJoinSpace message) ++ ['\n']

/-- The bytes sent by `send_input` (uno.py lines 268-271). -/
def send_input_line (message : List String) : List Char :=
  jsonDumps1 "input" (pyJoinSpace message) ++ ['\n']

/-- The apostrophe character, U+0027. -/
def apostrophe : Char := Char.ofNat 39

/-- The text of the late-registration error (uno.py line 251). -/
def name_error_text : String :=
  String.mk ("You didn".data ++ [apostrophe] ++ "t send a name in time!".data)

/-- The bytes sent to an unnamed connection (uno.py lines 250-251).  Note:
the source sends `json.dumps(...).encode()` with no trailing newline. -/
def name_error_line : List Char := jsonDumps1 "error" name_error_text

/-- The timeout update performed each loop iteration in `await_connect`
(uno.py line 220) and `await_usernames` (line 235):
`timeout = timeout - (stime - time.monotonic())`. -/
def timeout_update (timeout stime now : Int) : Int := timeout - (stime - now)

/-- The remaining-timeout value after `k` iterations of the registration
loops, for a scripted monotonic clock `clock`. -/
def awaitRemaining (t0 stime : Int) (clock : Nat → Int) : Nat → Int
  | 0 => t0
  | k + 1 => timeout_update (awaitRemaining t0 stime clock k) stime (clock k)

/-! ### Helper lemmas about the Python-list primitives -/

theorem pyPop_eq_none {α : Type} {l : List α} : pyPop l = none ↔ l = [] := by
  unfold pyPop
  cases h : l.getLast? with
  | none => simp [List.getLast?_eq_none_iff.mp h]
  | some x =>
    obtain ⟨ys, rfl⟩ := List.getLast?_eq_some_iff.mp h
    simp

theorem pyPop_sound {α : Type} {l l2 : List α} {x : α} (h : pyPop l = some (x, l2)) :
    l = l2 ++ [x] := by
  unfold pyPop at h
  cases hg : l.getLast? with
  | none => rw [hg] at h; simp at h
  | some y =>
    rw [hg] at h
    obtain ⟨ys, rfl⟩ := List.getLast?_eq_some_iff.mp hg
    simp at h
    obtain ⟨rfl, rfl⟩ := h
    simp

theorem pyPop_concat {α : Type} (l : List α) (x : α) : pyPop (l ++ [x]) = some (x, l) := by
  simp [pyPop]

theorem popN_perm {α : Type} :
    ∀ (n : Nat) (l cs l2 : List α), popN n l = some (cs, l2) → List.Perm (cs ++ l2) l := by
  intro n
  induction n with
  | zero =>
    intro l cs l2 h
    unfold popN at h
    simp at h
    obtain ⟨rfl, rfl⟩ := h
    simp
  | succ n ih =>
    intro l cs l2 h
    unfold popN at h
    split at h
    · simp at h
    · rename_i c l3 hp
      split at h
      · simp at h
      · rename_i cs2 l4 hq
        simp at h
        obtain ⟨rfl, rfl⟩ := h
        have h1 := pyPop_sound hp
        have h2 := ih l3 cs2 l4 hq
        rw [h1]
        refine List.Perm.trans ?_ (List.perm_append_singleton c l3).symm
        exact List.Perm.cons c h2

theorem cons_eraseIdx_perm {α : Type} {l : List α} {n : Nat} {a : α}
    (h : l[n]? = some a) : List.Perm (a :: l.eraseIdx n) l := by
  obtain ⟨hn, ha⟩ := List.getElem?_eq_some_iff.mp h
  rw [List.eraseIdx_eq_take_drop_succ]
  conv_rhs => rw [← List.take_append_drop n l, List.drop_eq_getElem_cons hn]
  rw [ha]
  exact (List.perm_middle).symm

theorem pyPopAt_perm {α : Type} {l l2 : List α} {idx : Int} {c : α}
    (h : pyPopAt l idx = some (c, l2)) : List.Perm (c :: l2) l := by
  unfold pyPopAt at h
  dsimp only at h
  by_cases hcond : (0 ≤ (if idx < 0 then idx + (l.length : Int) else idx)
      ∧ (if idx < 0 then idx + (l.length : Int) else idx) < (l.length : Int))
  · rw [if_pos hcond] at h
    cases hg : l[(if idx < 0 then idx + (l.length : Int) else idx).toNat]? with
    | none => rw [hg] at h; simp at h
    | some a =>
      rw [hg] at h
      simp at h
      obtain ⟨rfl, rfl⟩ := h
      exact cons_eraseIdx_perm hg
  · rw [if_neg hcond] at h
    simp at h

/-! ### Helper lemmas about the Python-string primitives -/

theorem digit_toUpper (c : Char) (h : c.isDigit = true) : c.toUpper = c := by
  rw [Char.isDigit, Bool.and_eq_true] at h
  obtain ⟨h1, h2⟩ := h
  rw [decide_eq_true_eq] at h1 h2
  have h2b : (c.val).toBitVec.toNat ≤ (57 : UInt32).toBitVec.toNat := h2
  rw [Char.toUpper]
  have hc : (57 : UInt32).toBitVec.toNat = 57 := by decide
  rw [if_neg]
  rw [hc] at h2b
  have hself : Char.toNat c = (c.val).toBitVec.toNat := rfl
  omega

theorem pyIsdigit_not_DRAW {s : String} (h : pyIsdigit s = true) :
    (pyUpper s == "DRAW") = false := by
  rw [pyIsdigit, Bool.and_eq_true] at h
  obtain ⟨hne, hall⟩ := h
  by_contra hcon
  rw [Bool.not_eq_false, beq_iff_eq] at hcon
  have hdata : s.data.map Char.toUpper = ['D', 'R', 'A', 'W'] :=
    congrArg String.data hcon
  cases hd : s.data with
  | nil => rw [hd] at hdata; simp at hdata
  | cons c t =>
    rw [hd] at hdata
    simp at hdata
    obtain ⟨hc, _⟩ := hdata
    rw [hd] at hall
    simp [List.all_cons] at hall
    have := digit_toUpper c hall.1
    rw [this] at hc
    rw [hc] at hall
    simp at hall

/-! ### Conservation lemmas for drawing -/

theorem reshuffle_perm {α : Type} {shrest rest l2 : List α} {x : α}
    (hperm : List.Perm shrest rest) (hsplit : shrest = l2 ++ [x]) (t : α) :
    List.Perm (x :: (l2 ++ [t])) (rest ++ [t]) := by
  have hx : List.Perm (x :: l2) rest := by
    rw [hsplit] at hperm
    exact (List.perm_append_singleton x l2).symm.trans hperm
  exact hx.append_right [t]

theorem draw_card_perm {sh : List Card → List Card} (hsh : ∀ l, List.Perm (sh l) l)
    {deck played : List Card} {c : Card} {d2 p2 : List Card}
    (h : draw_card sh deck played = some (c, d2, p2)) :
    List.Perm (c :: (d2 ++ p2)) (deck ++ played) := by
  unfold draw_card at h
  by_cases hde : deck.isEmpty = false
  · rw [if_pos hde] at h
    cases hp : pyPop deck with
    | none => rw [hp] at h; simp at h
    | some cd =>
      obtain ⟨c0, dl⟩ := cd
      rw [hp] at h
      simp at h
      obtain ⟨rfl, rfl, rfl⟩ := h
      rw [pyPop_sound hp]
      exact ((List.perm_append_singleton _ _).append_right _).symm
  · rw [if_neg hde] at h
    have hdeck : deck = [] := by
      rw [Bool.not_eq_false, List.isEmpty_iff] at hde
      exact hde
    subst hdeck
    cases hp : pyPop played with
    | none => rw [hp] at h; simp at h
    | some tr =>
      obtain ⟨top, rest⟩ := tr
      rw [hp] at h
      dsimp only at h
      cases hq : pyPop ([] ++ sh rest) with
      | none => rw [hq] at h; simp at h
      | some cd =>
        obtain ⟨c0, dd⟩ := cd
        rw [hq] at h
        simp at h
        obtain ⟨rfl, rfl, rfl⟩ := h
        have h2 := pyPop_sound hq
        simp only [List.nil_append] at h2
        rw [pyPop_sound hp]
        simp only [List.nil_append]
        exact reshuffle_perm (hsh rest) h2 top

theorem drawN_spec {sh : List Card → List Card} (hsh : ∀ l, List.Perm (sh l) l) :
    ∀ (n : Nat) (deck played drawn d2 p2 : List Card),
      drawN sh n deck played = some (drawn, d2, p2) →
      drawn.length = n ∧ List.Perm (drawn ++ d2 ++ p2) (deck ++ played) := by
  intro n
  induction n with
  | zero =>
    intro deck played drawn d2 p2 h
    unfold drawN at h
    simp at h
    obtain ⟨rfl, rfl, rfl⟩ := h
    simp
  | succ n ih =>
    intro deck played drawn d2 p2 h
    unfold drawN at h
    split at h
    · simp at h
    · rename_i c d3 p3 hd
      split at h
      · simp at h
      · rename_i cs d4 p4 hq
        simp at h
        obtain ⟨rfl, rfl, rfl⟩ := h
        obtain ⟨hlen, hperm⟩ := ih _ _ _ _ _ hq
        refine ⟨by simp [hlen], ?_⟩
        exact List.Perm.trans (List.Perm.cons c hperm) (draw_card_perm hsh hd)

/-- C4 (amended): `draw_card` succeeds whenever the deck is nonempty or the
discard pile has at least 2 cards (NOT merely `deck + discard ≥ 1`: with an
empty deck and a single discard card the refill is empty and the final pop
raises); in the empty-deck case it sets the former discard top aside as the
entire new discard pile and pops the drawn card from the shuffled remainder,
which together with the new deck is a permutation of that remainder. -/
theorem C4_draw_card (sh : List Card → List Card) (hsh : ∀ l, List.Perm (sh l) l)
    (deck played : List Card) (h : deck ≠ [] ∨ 2 ≤ played.length) :
    draw_card sh deck played ≠ none
    ∧ (∀ top rest, deck = [] → pyPop played = some (top, rest) →
        ∃ c deck2, draw_card sh deck played = some (c, deck2, [top])
          ∧ List.Perm (c :: deck2) rest) := by
  have hmain : ∀ top rest, deck = [] → pyPop played = some (top, rest) → rest ≠ [] →
      ∃ c deck2, draw_card sh deck played = some (c, deck2, [top])
        ∧ List.Perm (c :: deck2) rest := by
    intro top rest hdeck hpop hrest
    subst hdeck
    unfold draw_card
    rw [if_neg (by simp)]
    rw [hpop]
    dsimp only
    have hlen : (sh rest).length = rest.length := (hsh rest).length_eq
    have hsne : sh rest ≠ [] := by
      intro hcon
      rw [hcon] at hlen
      exact hrest (List.length_eq_zero.mp hlen.symm)
    cases hq : pyPop ([] ++ sh rest) with
    | none =>
      rw [List.nil_append] at hq
      exact absurd (pyPop_eq_none.mp hq) hsne
    | some cd =>
      obtain ⟨c, dd⟩ := cd
      dsimp only
      refine ⟨c, dd, rfl, ?_⟩
      have h2 := pyPop_sound hq
      rw [List.nil_append] at h2
      refine List.Perm.trans ?_ (hsh rest)
      rw [h2]
      exact (List.perm_append_singleton c dd).symm
  have hrest_ne : ∀ top rest, deck = [] → pyPop played = some (top, rest) → rest ≠ [] := by
    intro top rest hdeck hpop hcon
    subst hcon
    have := pyPop_sound hpop
    rcases h with hne | hlen
    · exact hne hdeck
    · rw [this] at hlen
      simp at hlen
  constructor
  · by_cases hdeck : deck = []
    · rcases h with hne | hlen
      · exact absurd hdeck hne
      · have hpne : played ≠ [] := by
          intro hcon
          rw [hcon] at hlen
          simp at hlen
        cases hpop : pyPop played with
        | none => exact absurd (pyPop_eq_none.mp hpop) hpne
        | some tr =>
          obtain ⟨top, rest⟩ := tr
          obtain ⟨c, d2, heq, _⟩ :=
            hmain top rest hdeck hpop (hrest_ne top rest hdeck hpop)
          rw [heq]
          exact Option.some_ne_none _
    · unfold draw_card
      rw [if_pos (by simpa [List.isEmpty_iff] using hdeck)]
      cases hp : pyPop deck with
      | none => exact absurd (pyPop_eq_none.mp hp) hdeck
      | some cd =>
        obtain ⟨c0, dl⟩ := cd
        simp
  · intro top rest hdeck hpop
    exact hmain top rest hdeck hpop (hrest_ne top rest hdeck hpop)

/-- Witness for C4: a concrete successful reshuffle-and-draw. -/
theorem C4_draw_card_witness :
    ∃ c deck2, draw_card (fun l => l) [] [(("1", "RED") : Card), ("2", "BLUE")]
        = some (c, deck2, [("2", "BLUE")])
      ∧ List.Perm (c :: deck2) [(("1", "RED") : Card)] :=
  (C4_draw_card (fun l => l) (fun l => List.Perm.refl l) []
      [("1", "RED"), ("2", "BLUE")] (Or.inr (by decide))).2
    ("2", "BLUE") [("1", "RED")] rfl (by decide)

/-- Counterexample for C4 as stated: with an empty deck and one discard card,
`len(deck) + len(discard) = 1` yet `draw_card` raises (the refilled deck is
empty when the final pop runs). -/
theorem C4_counterexample :
    draw_card (fun l => l) [] [(("0", "RED") : Card)] = none
    ∧ ([] : List Card).length + [(("0", "RED") : Card)].length = 1 := by
  constructor
  · decide
  · decide

/-- C8: `generate_deck` always returns the canonical 108-card multiset:
four rank-"0" cards (one per color), eight of each rank "1".."9", eight each
of SKIP/REVERSE/DRAW2, four each of WILD and WILD4 (color "ALL"), and two
calls yield the same multiset. -/
theorem C8_generate_deck (sh1 sh2 : List Card → List Card)
    (h1 : ∀ l, List.Perm (sh1 l) l) (h2 : ∀ l, List.Perm (sh2 l) l) :
    List.Perm (generate_deck sh1) (generate_deck sh2)
    ∧ (generate_deck sh1).length = 108
    ∧ (∀ c ∈ colors, ((generate_deck sh1).filter (fun x => x == (("0", c) : Card))).length = 1)
    ∧ (∀ r ∈ digitRanks, ((generate_deck sh1).filter (fun x => x.1 == r)).length = 8)
    ∧ (∀ r ∈ (["SKIP", "REVERSE", "DRAW2"] : List String),
        ((generate_deck sh1).filter (fun x => x.1 == r)).length = 8)
    ∧ ((generate_deck sh1).filter (fun x => x == (("WILD", "ALL") : Card))).length = 4
    ∧ ((generate_deck sh1).filter (fun x => x == (("WILD4", "ALL") : Card))).length = 4 := by
  have hp1 : List.Perm (generate_deck sh1) cards := h1 cards
  have hp2 : List.Perm (generate_deck sh2) cards := h2 cards
  refine ⟨hp1.trans hp2.symm, ?_, ?_, ?_, ?_, ?_, ?_⟩
  · rw [hp1.length_eq]
    decide
  · intro c hc
    rw [(hp1.filter _).length_eq]
    fin_cases hc <;> decide
  · intro r hr
    rw [(hp1.filter _).length_eq]
    fin_cases hr <;> decide
  · intro r hr
    rw [(hp1.filter _).length_eq]
    fin_cases hr <;> decide
  · rw [(hp1.filter _).length_eq]
    decide
  · rw [(hp1.filter _).length_eq]
    decide

/-- Witness for C8 at the identity shuffle. -/
theorem C8_generate_deck_witness :
    (generate_deck (fun l => l)).length = 108
    ∧ ((generate_deck (fun l => l)).filter
        (fun x => x == (("WILD4", "ALL") : Card))).length = 4 :=
  ⟨(C8_generate_deck (fun l => l) (fun l => l) (fun l => List.Perm.refl l)
      (fun l => List.Perm.refl l)).2.1,
   (C8_generate_deck (fun l => l) (fun l => l) (fun l => List.Perm.refl l)
      (fun l => List.Perm.refl l)).2.2.2.2.2.2⟩

/-- C9 (amended): `broadcast`, `send_user` and `send_input` each transmit a
single-key minimally-encoded JSON object terminated by a newline, with key
`message`/`message`/`input` respectively; the error object sent to an unnamed
connection is a single-key JSON object with key `error` but is transmitted
WITHOUT a trailing newline (its last byte is the closing brace). -/
theorem C9_protocol :
    (∀ parts : List String,
        broadcast_line parts = jsonDumps1 "message" (pyJoinSpace parts) ++ ['\n']
        ∧ (broadcast_line parts).getLast? = some '\n')
    ∧ (∀ parts : List String,
        send_user_line parts = jsonDumps1 "message" (pyJoinSpace parts) ++ ['\n']
        ∧ (send_user_line parts).getLast? = some '\n')
    ∧ (∀ parts : List String,
        send_input_line parts = jsonDumps1 "input" (pyJoinSpace parts) ++ ['\n']
        ∧ (send_input_line parts).getLast? = some '\n')
    ∧ name_error_line = jsonDumps1 "error" name_error_text
    ∧ name_error_line.getLast? = some (Char.ofNat 125) := by
  refine ⟨?_, ?_, ?_, rfl, by decide⟩
  · intro parts
    exact ⟨rfl, by rw [broadcast_line, List.getLast?_concat]⟩
  · intro parts
    exact ⟨rfl, by rw [send_user_line, List.getLast?_concat]⟩
  · intro parts
    exact ⟨rfl, by rw [send_input_line, List.getLast?_concat]⟩

/-- Counterexample for C9 as stated: the error line sent to a connection that
failed to name itself is NOT terminated by a newline. -/
theorem C9_counterexample : name_error_line.getLast? ≠ some '\n' := by decide

/-- C10 is a code bug: the loops update the remaining timeout with
`timeout - (stime - now)`, and since the monotonic clock satisfies
`stime ≤ now` this ADDS the elapsed time, so the remaining timeout never
decreases below its initial value and the `timeout <= 0` break never fires;
concretely, 60 seconds remaining becomes 70 after 10 elapsed seconds. -/
theorem C10_timeout_never_elapses (t0 stime : Int) (clock : Nat → Int)
    (hclock : ∀ k, stime ≤ clock k) :
    (∀ k, t0 ≤ awaitRemaining t0 stime clock k)
    ∧ timeout_update 60 0 10 = 70 := by
  constructor
  · intro k
    induction k with
    | zero => exact le_refl t0
    | succ k ih =>
      have hk := hclock k
      unfold awaitRemaining timeout_update
      omega
  · decide

/-- Witness for C10: with clock times 0,1,2,... and a 60-second timeout the
remaining timeout after 3 iterations is still at least 60. -/
theorem C10_timeout_witness :
    (60 : Int) ≤ awaitRemaining 60 0 (fun k => (k : Int)) 3 :=
  (C10_timeout_never_elapses 60 0 (fun k => (k : Int))
      (fun k => Int.natCast_nonneg k)).1 3

/-! ### The human selection loop: index arithmetic -/

theorem int_neg_one_emod {n : Int} (h : 1 ≤ n) : Int.emod (-1) n = n - 1 := by
  show (-1 : Int) % n = n - 1
  have hrw : (-1 : Int) = (n - 1) + n * (-1) := by ring
  rw [hrw, Int.add_mul_emod_self_left, Int.emod_eq_of_lt (by omega) (by omega)]

theorem pyPopAt_core {α : Type} {l : List α} {idx : Int} (hge : -1 ≤ idx) :
    pyPopAt l idx =
      if idx < (l.length : Int) ∧ 0 < l.length then
        (l[(Int.emod idx (l.length : Int)).toNat]?).map
          (fun a => (a, l.eraseIdx (Int.emod idx (l.length : Int)).toNat))
      else none := by
  unfold pyPopAt
  dsimp only
  by_cases h0 : idx < 0
  · have hidx : idx = -1 := by omega
    subst hidx
    rw [if_pos h0]
    by_cases hlen : (1 : Int) ≤ (l.length : Int)
    · have hcond : 0 ≤ -1 + (l.length : Int) ∧ -1 + (l.length : Int) < (l.length : Int) := by
        omega
      rw [if_pos hcond]
      rw [if_pos (⟨by omega, by omega⟩ : (-1 : Int) < (l.length : Int) ∧ 0 < l.length)]
      have hm : Int.emod (-1) (l.length : Int) = (l.length : Int) - 1 := int_neg_one_emod hlen
      rw [hm]
      have htn : ((-1 : Int) + (l.length : Int)).toNat = ((l.length : Int) - 1).toNat := by
        omega
      rw [htn]
      cases hg : l[((l.length : Int) - 1).toNat]? <;> simp [hg]
    · have hl0 : l = [] := by
        cases l with
        | nil => rfl
        | cons a t => simp at hlen
      subst hl0
      rw [if_neg (by simp), if_neg (by simp)]
  · rw [if_neg h0]
    by_cases hin : idx < (l.length : Int)
    · have hpos : 0 < l.length := by omega
      rw [if_pos (⟨by omega, hin⟩ : 0 ≤ idx ∧ idx < (l.length : Int))]
      rw [if_pos (⟨hin, hpos⟩ : idx < (l.length : Int) ∧ 0 < l.length)]
      have hm : Int.emod idx (l.length : Int) = idx := Int.emod_eq_of_lt (by omega) hin
      rw [hm]
      cases hg : l[idx.toNat]? <;> simp [hg]
    · rw [if_neg (fun hc => hin hc.2), if_neg (fun hc => hin hc.1)]

theorem pyPopAt_examined {α : Type} {l : List α} {idx : Int} {a c : α} {l2 : List α}
    (hge : -1 ≤ idx)
    (hg : l[(Int.emod idx (l.length : Int)).toNat]? = some a)
    (hpop : pyPopAt l idx = some (c, l2)) :
    c = a ∧ l2 = l.eraseIdx (Int.emod idx (l.length : Int)).toNat := by
  rw [pyPopAt_core hge] at hpop
  split at hpop
  · rw [hg] at hpop
    simp at hpop
    exact ⟨hpop.1.symm, hpop.2.symm⟩
  · simp at hpop

/-- The examined index `(int(dec) - 1) % len(hand)` of uno.py line 137. -/
def selIndex (hand : List Card) (dec : String) : Nat :=
  (Int.emod ((pyInt dec : Int) - 1) (hand.length : Int)).toNat

theorem select_step_digit (hand : List Card) (top : Card) (dec : String)
    (hd : pyIsdigit dec = true)
    (hle : ((pyInt dec : Int) - 1) ≤ (hand.length : Int)) :
    select_step hand top dec =
      match hand[(Int.emod ((pyInt dec : Int) - 1) (hand.length : Int)).toNat]? with
      | none => SelOutcome.crash
      | some ncard =>
        if legal ncard top then
          match pyPopAt hand ((pyInt dec : Int) - 1) with
          | none => SelOutcome.crash
          | some (card, hand2) => SelOutcome.play card hand2
        else SelOutcome.reprompt := by
  unfold select_step
  rw [if_neg (by rw [pyIsdigit_not_DRAW hd]; simp)]
  rw [if_neg (by rw [hd]; simp)]
  rw [if_neg (by omega)]

theorem select_step_inrange (hand : List Card) (top : Card) (dec : String)
    (hd : pyIsdigit dec = true) (hne : hand ≠ [])
    (hlt : ((pyInt dec : Int) - 1) < (hand.length : Int))
    (hj : selIndex hand dec < hand.length) :
    (legal (hand.get ⟨selIndex hand dec, hj⟩) top = true →
      select_step hand top dec =
        SelOutcome.play (hand.get ⟨selIndex hand dec, hj⟩)
          (hand.eraseIdx (selIndex hand dec)))
    ∧ (legal (hand.get ⟨selIndex hand dec, hj⟩) top = false →
      select_step hand top dec = SelOutcome.reprompt) := by
  unfold selIndex at hj ⊢
  have hstep := select_step_digit hand top dec hd (le_of_lt hlt)
  have hg : hand[(Int.emod ((pyInt dec : Int) - 1) (hand.length : Int)).toNat]?
      = some (hand.get ⟨(Int.emod ((pyInt dec : Int) - 1) (hand.length : Int)).toNat, hj⟩) := by
    rw [List.getElem?_eq_getElem hj]
    simp
  constructor
  · intro hlegal
    rw [hstep, hg]
    dsimp only
    rw [if_pos hlegal]
    rw [pyPopAt_core (by omega)]
    rw [if_pos (⟨hlt, by omega⟩ : ((pyInt dec : Int) - 1) < (hand.length : Int) ∧ 0 < hand.length)]
    rw [hg]
    rfl
  · intro hlegal
    rw [hstep, hg]
    dsimp only
    rw [if_neg (by rw [hlegal]; simp)]

/-- C3 (amended): a selection attempt that returns a play always pops a card
that passed the legality test (wild, or rank or color match), and rejected
attempts re-prompt with the very same unmutated hand; conversely, for every
digit input whose 0-based index `int(dec)-1` is strictly below the hand
length, the examined card is popped iff it is legal and rejected iff not.
(The unrestricted "legal implies accepted" of the claim fails at the admitted
boundary index `int(dec)-1 = len(hand)`, where a legal examined card makes
the pop raise instead — see the counterexample.) -/
theorem C3_play_acceptance (hand : List Card) (top : Card) (dec : String)
    (ds : List String) :
    (∀ card hand2, select_step hand top dec = SelOutcome.play card hand2 →
        legal card top = true ∧ List.Perm (card :: hand2) hand)
    ∧ (select_step hand top dec = SelOutcome.reprompt →
        select_loop hand top (dec :: ds) = select_loop hand top ds)
    ∧ (pyIsdigit dec = true → hand ≠ [] →
        ∀ hlt : ((pyInt dec : Int) - 1) < (hand.length : Int),
        ∀ hj : selIndex hand dec < hand.length,
          (legal (hand.get ⟨selIndex hand dec, hj⟩) top = true →
            select_step hand top dec =
              SelOutcome.play (hand.get ⟨selIndex hand dec, hj⟩)
                (hand.eraseIdx (selIndex hand dec)))
          ∧ (legal (hand.get ⟨selIndex hand dec, hj⟩) top = false →
            select_step hand top dec = SelOutcome.reprompt)) := by
  refine ⟨?_, ?_, ?_⟩
  · intro card hand2 h
    unfold select_step at h
    split at h
    · simp at h
    · split at h
      · simp at h
      · split at h
        · simp at h
        · dsimp only at h
          split at h
          · simp at h
          · rename_i ncard hg
            split at h
            · rename_i hlegal
              split at h
              · simp at h
              · rename_i card2 hand3 hpop
                simp at h
                obtain ⟨rfl, rfl⟩ := h
                have hex := pyPopAt_examined (by omega) hg hpop
                refine ⟨?_, pyPopAt_perm hpop⟩
                rw [hex.1]
                exact hlegal
            · simp at h
  · intro h
    unfold select_loop
    rw [h]
    simp
    cases ds with
    | nil => rfl
    | cons d2 ds2 => rfl
  · intro hd hne hlt hj
    exact select_step_inrange hand top dec hd hne hlt hj

/-- Witness for C3: a legal rank-match play is accepted and conserves the
hand. -/
theorem C3_play_acceptance_witness :
    legal (("7", "BLUE") : Card) ("7", "GREEN") = true
    ∧ List.Perm ((("7", "BLUE") : Card) :: [("4", "RED")])
        [(("4", "RED") : Card), ("7", "BLUE")] :=
  (C3_play_acceptance [("4", "RED"), ("7", "BLUE")] ("7", "GREEN") "2" []).1
    ("7", "BLUE") [("4", "RED")] (by decide)

/-- Counterexample for C3 as stated: with a one-card hand whose card legally
matches the top by rank, the input "2" (admitted by the off-by-one bound
check) makes the examined card legal yet the attempt neither pops nor
re-prompts -- it crashes on `hand.pop(1)`. -/
theorem C3_counterexample :
    legal (("0", "RED") : Card) ("0", "BLUE") = true
    ∧ select_step [(("0", "RED") : Card)] ("0", "BLUE") "2" = SelOutcome.crash := by
  decide

/-- C5 (amended): for every digit input `k` with `(k-1) < len(hand)`
(including `k = 0`, which wraps to the last card), the card examined and the
card popped are both the one at 0-based index `(k-1) mod len(hand)`; but for
the off-by-one-admitted input `k-1 = len(hand)` the examined card is
`hand[0]` and, when it is legal, the selection raises on `hand.pop(k-1)`
instead of wrapping. -/
theorem C5_index_semantics (hand : List Card) (top : Card) (dec : String)
    (hd : pyIsdigit dec = true) (hne : hand ≠ []) :
    (∀ hlt : ((pyInt dec : Int) - 1) < (hand.length : Int),
      ∀ hj : selIndex hand dec < hand.length,
        legal (hand.get ⟨selIndex hand dec, hj⟩) top = true →
          select_step hand top dec =
            SelOutcome.play (hand.get ⟨selIndex hand dec, hj⟩)
              (hand.eraseIdx (selIndex hand dec)))
    ∧ (((pyInt dec : Int) - 1) = (hand.length : Int) →
        ∀ h0 : 0 < hand.length,
          legal (hand.get ⟨0, h0⟩) top = true →
          select_step hand top dec = SelOutcome.crash) := by
  constructor
  · intro hlt hj hlegal
    exact (select_step_inrange hand top dec hd hne hlt hj).1 hlegal
  · intro heq h0 hlegal
    have hstep := select_step_digit hand top dec hd (le_of_eq heq)
    rw [hstep]
    have hm : Int.emod ((pyInt dec : Int) - 1) (hand.length : Int) = 0 := by
      rw [heq]
      exact Int.emod_self
    rw [hm]
    have hg0 : hand[(0 : Int).toNat]? = some (hand.get ⟨0, h0⟩) := by
      rw [List.getElem?_eq_getElem (by simpa using h0)]
      simp
    rw [hg0]
    dsimp only
    rw [if_pos hlegal]
    rw [pyPopAt_core (by omega)]
    rw [if_neg (fun hc => absurd hc.1 (by omega))]

/-- Witness for C5: input "1" examines and pops the card at index 0. -/
theorem C5_index_semantics_witness :
    select_step [(("3", "RED") : Card), ("7", "BLUE")] ("3", "GREEN") "1"
      = SelOutcome.play ("3", "RED") [("7", "BLUE")] :=
  (C5_index_semantics [("3", "RED"), ("7", "BLUE")] ("3", "GREEN") "1"
      (by decide) (by decide)).1 (by decide) (by decide) (by decide)

/-- Counterexample for C5 as stated: input "3" on a two-card hand passes the
bound check, examines `hand[(3-1) mod 2] = hand[0]` (legal by rank match),
and then raises on `hand.pop(2)` instead of popping the examined card. -/
theorem C5_counterexample :
    legal (("3", "RED") : Card) ("3", "GREEN") = true
    ∧ select_step [(("3", "RED") : Card), ("7", "BLUE")] ("3", "GREEN") "3"
        = SelOutcome.crash := by
  decide

/-! ### Wild-card recoloring and forced draws -/

theorem color_loop_rank {card : Card} :
    ∀ {ins : List String} {res : Card}, color_loop card ins = some res → res.1 = "WILD" := by
  intro ins
  induction ins with
  | nil =>
    intro res h
    simp [color_loop] at h
  | cons s rest ih =>
    intro res h
    unfold color_loop at h
    dsimp only at h
    split at h
    · have := Option.some.inj h
      rw [← this]
    · exact ih h

/-- C2 (amended): when the bot plays a wild card, recoloring keeps the rank
(so a bot-played WILD4 stays WILD4 and the next seat draws
`int("WILD4"[-1]) = 4` cards, appended to its hand by `apply_play`); but the
human color-selection loop rebuilds the played card as `("WILD", newcolor)`,
so a human-played WILD4 loses its rank, its draw count is computed as 0, and
the next player draws nothing. -/
theorem C2_wild4_effects :
    (∀ (r col fallback : String) (hand : List Card),
        (ai_recolor (r, col) hand fallback).1 = r)
    ∧ (∀ col, ndrawOf ("WILD4", col) = 4 ∧ ndrawOf ("DRAW2", col) = 2
        ∧ ndrawOf ("WILD", col) = 0)
    ∧ (∀ (card : Card) (ins : List String) (res : Card),
        color_loop card ins = some res → res.1 = "WILD" ∧ ndrawOf res = 0)
    ∧ (∀ (sh : List Card → List Card), (∀ l, List.Perm (sh l) l) →
        ∀ (st : EngineState) (i : Nat) (player : Player) (hand2 : List Card)
          (col : String) (drawn deck2 played3 : List Card) (np : Player) (nh : List Card),
        drawN sh 4 st.deck (st.played ++ [(("WILD4", col) : Card)])
            = some (drawn, deck2, played3) →
        (st.play_order.set i (player, hand2))[(i + 1) %
            (st.play_order.set i (player, hand2)).length]? = some (np, nh) →
        apply_play sh st i player ("WILD4", col) hand2 = StepResult.next
          { play_order := (st.play_order.set i (player, hand2)).set
              ((i + 1) % (st.play_order.set i (player, hand2)).length) (np, nh ++ drawn)
            deck := deck2
            played := played3
            skipped := false }
        ∧ drawn.length = 4) := by
  refine ⟨?_, ?_, ?_, ?_⟩
  · intro r col fallback hand
    rfl
  · intro col
    exact ⟨rfl, rfl, rfl⟩
  · intro card ins res h
    have hr := color_loop_rank h
    refine ⟨hr, ?_⟩
    unfold ndrawOf
    rw [hr]
    rfl
  · intro sh hsh st i player hand2 col drawn deck2 played3 np nh hdrawN hnp
    have hlen := (drawN_spec hsh 4 _ _ _ _ _ hdrawN).1
    refine ⟨?_, hlen⟩
    unfold apply_play
    dsimp only
    rw [show ((("WILD4", col) : Card).1 == "REVERSE") = false from rfl]
    rw [show ((("WILD4", col) : Card).1 == "SKIP") = false from rfl]
    rw [show ndrawOf (("WILD4", col) : Card) = 4 from rfl]
    rw [if_neg (by decide : ¬(4 = 0))]
    simp only [Bool.false_eq_true, if_false]
    rw [hdrawN]
    dsimp only
    rw [hnp]

/-- Witness for C2: a bot-played WILD4 makes the next seat draw 4 cards. -/
theorem C2_wild4_effects_witness :
    apply_play (fun l => l)
        ⟨[(Player.ai "A", []), (Player.ai "B", [])],
          [("1", "RED"), ("2", "RED"), ("3", "RED"), ("4", "RED")],
          [("9", "RED")], false⟩ 0 (Player.ai "A") ("WILD4", "RED") []
      = StepResult.next
          ⟨[(Player.ai "A", []),
            (Player.ai "B", [("4", "RED"), ("3", "RED"), ("2", "RED"), ("1", "RED")])],
            [], [("9", "RED"), ("WILD4", "RED")], false⟩
    ∧ ([("4", "RED"), ("3", "RED"), ("2", "RED"), ("1", "RED")] : List Card).length = 4 :=
  C2_wild4_effects.2.2.2 (fun l => l) (fun l => List.Perm.refl l)
    ⟨[(Player.ai "A", []), (Player.ai "B", [])],
      [("1", "RED"), ("2", "RED"), ("3", "RED"), ("4", "RED")],
      [("9", "RED")], false⟩ 0 (Player.ai "A") []
    "RED" [("4", "RED"), ("3", "RED"), ("2", "RED"), ("1", "RED")] [] 
    [("9", "RED"), ("WILD4", "RED")] (Player.ai "B") [] (by decide) (by decide)

/-- Counterexample for C2 as stated: the human color loop rewrites a played
WILD4 to rank "WILD", whose computed draw count is 0, not 4. -/
theorem C2_counterexample :
    color_loop ("WILD4", "ALL") ["RED"] = some ("WILD", "RED")
    ∧ ndrawOf ("WILD", "RED") = 0 := by
  decide

/-! ### Engine iteration: win detection, skip handling, conservation -/

theorem apply_draw_ne_gameOver (sh : List Card → List Card) (st : EngineState)
    (i : Nat) (player : Player) (hand : List Card) (w : String) :
    apply_draw sh st i player hand ≠ StepResult.gameOver w := by
  unfold apply_draw
  split <;> simp

theorem apply_play_ne_gameOver (sh : List Card → List Card) (st : EngineState)
    (i : Nat) (player : Player) (card : Card) (hand2 : List Card) (w : String) :
    apply_play sh st i player card hand2 ≠ StepResult.gameOver w := by
  unfold apply_play
  dsimp only
  split
  · simp
  · split
    · simp
    · split <;> simp

theorem turn_decision_won_iff (sc : TurnScript) (player : Player) (hand : List Card)
    (top : Card) (w : String) :
    turn_decision sc player hand top = Decision.won w ↔
      (player = Player.human w ∧
        ∃ card, select_loop hand top sc.inputs = some (SelOutcome.play card [])) := by
  cases player with
  | ai name =>
    constructor
    · intro h
      unfold turn_decision at h
      dsimp only at h
      split at h <;> simp at h
    · rintro ⟨hp, -⟩
      simp at hp
  | human name =>
    constructor
    · intro h
      unfold turn_decision at h
      dsimp only at h
      split at h
      · simp at h
      · simp at h
      · simp at h
      · simp at h
      · rename_i card hand2 hsel
        split at h
        · rename_i hemp
          have hw : name = w := by simpa using h
          subst hw
          refine ⟨rfl, card, ?_⟩
          rw [List.isEmpty_iff] at hemp
          rw [← hemp]
          exact hsel
        · split at h
          · split at h <;> simp at h
          · simp at h
    · rintro ⟨hp, card, hsel⟩
      have hw : name = w := by injection hp
      subst hw
      unfold turn_decision
      dsimp only
      rw [hsel]
      dsimp only
      rw [if_pos (by simp)]

/-- C1 (amended): the engine returns a winner exactly when the acting,
non-skipped player is a HUMAN whose card selection pops a card leaving an
empty hand (never after a draw); a bot that empties its hand does not end
the game, because the win check of uno.py lines 142-144 exists only in the
human branch. -/
theorem C1_termination (sh : List Card → List Card) (sc : TurnScript)
    (st : EngineState) (i : Nat) (w : String) :
    engine_iter sh sc st i = StepResult.gameOver w ↔
      (st.skipped = false ∧
        ∃ hand top card,
          st.play_order[i]? = some (Player.human w, hand) ∧
          st.played.getLast? = some top ∧
          select_loop hand top sc.inputs = some (SelOutcome.play card [])) := by
  constructor
  · intro h
    unfold engine_iter at h
    split at h
    · simp at h
    · rename_i player hand hp
      split at h
      · simp at h
      · rename_i hsk
        split at h
        · simp at h
        · rename_i top htop
          split at h
          · simp at h
          · rename_i w2 hdec
            have hw : w2 = w := by simpa using h
            subst hw
            obtain ⟨hphw, card, hsel⟩ := (turn_decision_won_iff sc player hand top w2).mp hdec
            subst hphw
            exact ⟨by simpa using hsk, hand, top, card, hp, htop, hsel⟩
          · exact absurd h (apply_draw_ne_gameOver sh st i player hand w)
          · rename_i card hand2 hdec
            exact absurd h (apply_play_ne_gameOver sh st i player card hand2 w)
  · rintro ⟨hsk, hand, top, card, hp, htop, hsel⟩
    unfold engine_iter
    rw [hp]
    dsimp only
    rw [hsk]
    simp only [Bool.false_eq_true, if_false]
    rw [htop]
    dsimp only
    have hwon : turn_decision sc (Player.human w) hand top = Decision.won w :=
      (turn_decision_won_iff sc (Player.human w) hand top w).mpr ⟨rfl, card, hsel⟩
    rw [hwon]

/-- Counterexample for C1 as stated: a bot plays its last card (its hand
length becomes 0 immediately after a successful play) yet the engine does
not return a winner -- it steps to the next iteration. -/
theorem C1_counterexample :
    engine_iter (fun l => l) ⟨[], [], 0, "RED"⟩
        ⟨[(Player.ai "Player 0", [("5", "RED")])], [], [("5", "BLUE")], false⟩ 0
      = StepResult.next
          ⟨[(Player.ai "Player 0", [])], [], [("5", "BLUE"), ("5", "RED")], false⟩ := by
  decide

/-- C7 (amended): a skipped-pending player is bypassed without a decision
(the flag is cleared and the state is otherwise untouched), and playing a
SKIP sets the pending flag for the next iteration of the same pass; but a
SKIP played by the LAST player of a pass has no effect, because the outer
loop resets the flag at the top of every pass (uno.py line 110) -- see the
counterexample. -/
theorem C7_skip_pending (sh : List Card → List Card) (sc : TurnScript)
    (st : EngineState) (i : Nat) (player : Player) (hand : List Card)
    (hp : st.play_order[i]? = some (player, hand)) (hsk : st.skipped = true) :
    engine_iter sh sc st i = StepResult.next { st with skipped := false }
    ∧ (∀ (p2 : Player) (hand2 : List Card) (col : String),
        apply_play sh st i p2 ("SKIP", col) hand2 = StepResult.next
          { play_order := st.play_order.set i (p2, hand2)
            deck := st.deck
            played := st.played ++ [(("SKIP", col) : Card)]
            skipped := true }) := by
  constructor
  · unfold engine_iter
    rw [hp]
    dsimp only
    rw [if_pos hsk]
  · intro p2 hand2 col
    unfold apply_play
    dsimp only
    rw [show ((("SKIP", col) : Card).1 == "REVERSE") = false from rfl]
    rw [show ((("SKIP", col) : Card).1 == "SKIP") = true from rfl]
    rw [show ndrawOf (("SKIP", col) : Card) = 0 from rfl]
    simp

/-- Witness for C7: a concrete skipped-pending bot is bypassed with only the
flag cleared. -/
theorem C7_skip_pending_witness :
    engine_iter (fun l => l) ⟨[], [], 0, "RED"⟩
        ⟨[(Player.ai "A", [("1", "RED")])], [], [("2", "RED")], true⟩ 0
      = StepResult.next ⟨[(Player.ai "A", [("1", "RED")])], [], [("2", "RED")], false⟩ :=
  (C7_skip_pending (fun l => l) ⟨[], [], 0, "RED"⟩
      ⟨[(Player.ai "A", [("1", "RED")])], [], [("2", "RED")], true⟩ 0
      (Player.ai "A") [("1", "RED")] (by decide) rfl).1

/-- Counterexample for C7 as stated: the (single, hence last) player "B"
plays a SKIP in pass 1; on the next iteration (pass 2, wrapping around to
the first seat) B is NOT bypassed: the outer loop resets the flag and B
plays its "9 RED", as the final state shows. -/
theorem C7_counterexample :
    engine_run (fun l => l)
        [[⟨[], [], 0, "RED"⟩], [⟨[], [], 0, "RED"⟩]]
        ⟨[(Player.ai "B", [("SKIP", "RED"), ("9", "RED")])], [], [("3", "RED")], false⟩
      = RunResult.running
          ⟨[(Player.ai "B", [])], [],
            [("3", "RED"), ("SKIP", "RED"), ("9", "RED")], false⟩ := by
  decide

/-- C6 (amended): the card multiset is conserved by dealing
(`generate_hand`), by drawing with reshuffle (`draw_card`, `drawN`), and by
the pop of a play (the popped card plus the remaining hand permute the old
hand, so moving it to the discard pile conserves the total); but wild-card
recoloring REWRITES the color of the played card (and, for humans, its rank), so
the multiset of (rank, color) pairs is NOT invariant once a wild is played
-- see the counterexample. -/
theorem C6_conservation (sh : List Card → List Card) (hsh : ∀ l, List.Perm (sh l) l) :
    (∀ (deck hand deck2 : List Card), generate_hand deck = some (hand, deck2) →
        List.Perm (hand ++ deck2) deck)
    ∧ (∀ (deck played : List Card) (c : Card) (deck2 played2 : List Card),
        draw_card sh deck played = some (c, deck2, played2) →
        List.Perm (c :: (deck2 ++ played2)) (deck ++ played))
    ∧ (∀ (n : Nat) (deck played drawn deck2 played2 : List Card),
        drawN sh n deck played = some (drawn, deck2, played2) →
        List.Perm (drawn ++ deck2 ++ played2) (deck ++ played))
    ∧ (∀ (hand : List Card) (idx : Int) (card : Card) (hand2 : List Card),
        pyPopAt hand idx = some (card, hand2) →
        List.Perm (hand2 ++ [card]) hand) := by
  refine ⟨?_, ?_, ?_, ?_⟩
  · intro deck hand deck2 h
    exact popN_perm 7 deck hand deck2 h
  · intro deck played c deck2 played2 h
    exact draw_card_perm hsh h
  · intro n deck played drawn deck2 played2 h
    exact (drawN_spec hsh n deck played drawn deck2 played2 h).2
  · intro hand idx card hand2 h
    exact (List.perm_append_singleton card hand2).trans (pyPopAt_perm h)

/-- Witness for C6: a concrete conserving draw. -/
theorem C6_conservation_witness :
    List.Perm ((("9", "GREEN") : Card) :: ([] ++ [])) ([(("9", "GREEN") : Card)] ++ []) :=
  (C6_conservation (fun l => l) (fun l => List.Perm.refl l)).2.1
    [("9", "GREEN")] [] ("9", "GREEN") [] [] (by decide)

/-- Counterexample for C6 as stated: a human plays ("WILD","ALL") and
recolors it to RED; the multiset of cards in deck, discard and hands then
differs from what it was before the turn (("WILD","ALL") has been rewritten
to ("WILD","RED")), so the invariant is not preserved by the recolor
operation. -/
theorem C6_counterexample :
    engine_iter (fun l => l) ⟨["1"], ["RED"], 0, "RED"⟩
        ⟨[(Player.human "H", [("WILD", "ALL"), ("1", "RED")])], [],
          [("5", "BLUE")], false⟩ 0
      = StepResult.next
          ⟨[(Player.human "H", [("1", "RED")])], [],
            [("5", "BLUE"), ("WILD", "RED")], false⟩
    ∧ ¬ List.Perm
        (allCards ⟨[(Player.human "H", [("1", "RED")])], [],
          [("5", "BLUE"), ("WILD", "RED")], false⟩)
        (allCards ⟨[(Player.human "H", [("WILD", "ALL"), ("1", "RED")])], [],
          [("5", "BLUE")], false⟩) := by
  constructor
  · decide
  · decide
